import Mathlib

/-!
Shallow embedding of the pdf-audio-summarizer repository
(src/streamlit_app.py, src/utils/claude_client.py, src/utils/elevenlabs_client.py).

Strings are modelled as `List Char`; Python byte strings as `List Nat`.
Python float thresholds: the source compares integers against the float
products `max_chars * 0.8`, `char_limit * 0.8`, `target_words * 0.7`,
`target_words * 1.3`.  For every value these expressions take in the
program (`max_chars = 5000`, `char_limit = 396000`, `target_words` a
multiple of 150), the IEEE-754 double product rounds to the exact value
of the product with the rational 4/5, 7/10 or 13/10 (checked:
5000*0.8 == 4000.0, 396000*0.8 == 316800.0, 450*0.7 == 315.0,
450*1.3 == 585.0 hold exactly in double arithmetic), so the comparisons
are modelled by exact rational arithmetic with those fractions.
-/

namespace PdfAudio

/-- Python whitespace characters relevant to `str.strip` / `str.split`
(ASCII subset: space, tab, newline, carriage return, vertical tab, form feed). -/
def isSpacePy (c : Char) : Bool :=
  c = ' ' || c = '\t' || c = '\n' || c = '\x0d' || c = '\x0b' || c = '\x0c'

/-- `not s.strip()` in Python: the string is empty or all whitespace. -/
def isBlank (s : List Char) : Bool :=
  s.all isSpacePy

/-- Python `s.strip()`: remove leading and trailing whitespace. -/
def stripChars (s : List Char) : List Char :=
  ((s.dropWhile isSpacePy).reverse.dropWhile isSpacePy).reverse

/-- `len(s.split())` in Python: the number of maximal runs of
non-whitespace characters. -/
def wordCount (s : List Char) : Nat :=
  (s.foldl
    (fun (st : Nat × Bool) c =>
      if isSpacePy c then (st.1, false)
      else if st.2 then st else (st.1 + 1, true))
    (0, false)).1

/-- `sub` matches `s` at its head (Python `s.startswith(sub)`). -/
def headMatches : List Char → List Char → Bool
  | [], _ => true
  | _ :: _, [] => false
  | c :: cs, d :: ds => c = d && headMatches cs ds

/-- Python `s.rfind(sub)`: the greatest index `i` at which `sub` occurs in
`s`, as `some i`; `none` models Python result `-1`.  Occurrences at
indices `≥ 1` of `c :: rest` are occurrences in `rest` shifted by one,
and `rfind` prefers the greatest index, so the tail is searched first. -/
def pyRfind : List Char → List Char → Option Nat
  | [], sub => if sub.isEmpty then some 0 else none
  | c :: rest, sub =>
    match pyRfind rest sub with
    | some j => some (j + 1)
    | none => if headMatches sub (c :: rest) then some 0 else none

/-- `sub` occurs in `s` as a contiguous substring (Python `sub in s`). -/
def containsSub (s sub : List Char) : Bool :=
  headMatches sub s ||
    match s with
    | [] => false
    | _ :: rest => containsSub rest sub

/-- Worker for `pyReplace`, structurally recursive on a fuel bound on
the number of characters still to be scanned (each step consumes at
least one character of `s`, so `s.length` fuel suffices). -/
def pyReplaceAux : Nat → List Char → List Char → List Char → List Char
  | 0, _, _, _ => []
  | _ + 1, [], _, _ => []
  | fuel + 1, c :: rest, sub, repl =>
    if ¬ sub.isEmpty ∧ headMatches sub (c :: rest) then
      repl ++ pyReplaceAux fuel ((c :: rest).drop sub.length) sub repl
    else
      c :: pyReplaceAux fuel rest sub repl

/-- Python `s.replace(sub, repl)` for a non-empty pattern `sub`:
left-to-right scan replacing non-overlapping occurrences.  (The
repository only calls `replace` with the pattern `".pdf"`, so the
special behaviour of an empty pattern is not modelled.) -/
def pyReplace (s sub repl : List Char) : List Char :=
  pyReplaceAux s.length s sub repl

/-- Python-style errors raised by the repository code. -/
inductive PyErr where
  | valueError (msg : List Char)
  | apiError (msg : List Char)
  | runtimeError (cause : PyErr)
deriving DecidableEq

/-! ## src/utils/claude_client.py — ClaudeProcessor -/

/-- `self.max_input_tokens = 100_000` (claude_client.py line 51). -/
def max_input_tokens : Nat := 100000

/-- `self.target_output_tokens = 2_000` (claude_client.py line 52). -/
def target_output_tokens : Nat := 2000

/-- `estimate_tokens` (claude_client.py lines 105–121):
`len(text) // 4`. -/
def estimate_tokens (text : List Char) : Nat :=
  text.length / 4

/-- `truncate_pdf_content` (claude_client.py lines 123–159).
`truncated.rfind('\n\n')` is `pyRfind`; the float comparison
`last_paragraph > char_limit * 0.8` is modelled exactly (see header). -/
def truncate_pdf_content (pdf_text : List Char) : List Char :=
  let estimated_tokens := estimate_tokens pdf_text
  let available_tokens := max_input_tokens - 1000
  if estimated_tokens ≤ available_tokens then
    pdf_text
  else
    let char_limit := available_tokens * 4
    let truncated := pdf_text.take char_limit
    match pyRfind truncated ['\n', '\n'] with
    | some last_paragraph =>
      if (last_paragraph : ℚ) > (char_limit : ℚ) * (4 / 5) then
        truncated.take last_paragraph
      else
        truncated
    | none => truncated

/-- The constant pieces of the prompt template of `create_summary_prompt`
(claude_client.py lines 75–101), split at the three interpolation points
`{target_minutes}`, `{target_words}` (twice) and `{pdf_text}`.
`promptApos` is the apostrophe character (in the source text
`let's examine`). -/
def promptApos : Char := Char.ofNat 39

def promptSeg0 : List Char :=
  "You are an expert scientific communicator tasked with creating audio-ready summaries of research papers.\n\nTASK: Create a ".toList

def promptSeg1 : List Char :=
  "-minute spoken summary (approximately ".toList

def promptSeg2 : List Char :=
  " words) of the following scientific paper.\n\nREQUIREMENTS:\n1. **Audio-First Design**: Write for listening, not reading\n   - Use clear, conversational language\n   - Include natural transitions between sections\n   - Avoid complex jargon without explanation\n\n2. **Structure for Audio**:\n   - Start with a compelling hook about the research significance\n   - Provide clear section transitions (\"Now, let".toList
  ++ promptApos ::
  "s examine the methodology...\")\n   - End with practical implications and future directions\n\n3. **Scientific Accuracy**:\n   - Preserve key technical details and findings\n   - Explain methodology in accessible terms\n   - Include specific numbers and results where important\n\n4. **Target Length**: Exactly ".toList

def promptSeg3 : List Char :=
  " words (Â±50 words)\n\nPAPER CONTENT:\n".toList

def promptSeg4 : List Char :=
  "\n\nOUTPUT FORMAT:\nProvide only the summary text, ready for text-to-speech conversion. No headers, bullet points, or formatting - just flowing, natural speech.".toList

/-- `create_summary_prompt` (claude_client.py lines 56–103):
`target_words = target_minutes * 150`, then the f-string template. -/
def create_summary_prompt (pdf_text : List Char) (target_minutes : Nat) : List Char :=
  let target_words := target_minutes * 150
  promptSeg0 ++ Nat.toDigits 10 target_minutes
    ++ promptSeg1 ++ Nat.toDigits 10 target_words
    ++ promptSeg2 ++ Nat.toDigits 10 target_words
    ++ promptSeg3 ++ pdf_text ++ promptSeg4

/-- The output-quality check of `generate_summary` (claude_client.py
lines 199–208): a warning is logged iff `word_count < target_words * 0.7`
or `word_count > target_words * 1.3` (float comparisons, modelled
exactly: see header). -/
def summary_warning (word_count target_words : Nat) : Bool :=
  decide ((word_count : ℚ) < (target_words : ℚ) * (7 / 10))
    || decide ((word_count : ℚ) > (target_words : ℚ) * (13 / 10))

/-- Observable outcome of one `generate_summary` call: the returned value
or raised error, the list of prompts actually sent to the Claude API (in
order), and whether a word-count warning was logged. -/
structure SummaryRun where
  result : Except PyErr (List Char)
  apiCalls : List (List Char)
  warned : Bool

/-- `generate_summary` (claude_client.py lines 161–217), with the
external service abstracted as a function `api` from the prompt sent to
the response text or error.  Blank input raises
`ValueError("PDF content cannot be empty")` before any API call; service
errors are re-raised unchanged; on success the response is stripped and
the word count compared against the target. -/
def generate_summary_run (pdf_text : List Char) (target_minutes : Nat)
    (api : List Char → Except PyErr (List Char)) : SummaryRun :=
  if isBlank pdf_text then
    ⟨.error (.valueError ("PDF content cannot be empty".toList)), [], false⟩
  else
    let processed_content := truncate_pdf_content pdf_text
    let prompt := create_summary_prompt processed_content target_minutes
    match api prompt with
    | .error e => ⟨.error e, [prompt], false⟩
    | .ok response =>
      let summary := stripChars response
      let word_count := wordCount summary
      let target_words := target_minutes * 150
      ⟨.ok summary, [prompt], summary_warning word_count target_words⟩

/-! ## src/utils/elevenlabs_client.py — ElevenLabsProcessor -/

/-- `estimate_audio_duration` (elevenlabs_client.py lines 63–83):
`len(text.split()) / words_per_minute`, modelled in exact rational
arithmetic (float division by a positive integer is monotone in the
numerator, which is all the development uses). -/
def estimate_audio_duration (text : List Char) (words_per_minute : Nat) : ℚ :=
  let word_count := wordCount text
  (word_count : ℚ) / (words_per_minute : ℚ)

/-- `validate_text_length` (elevenlabs_client.py lines 85–113).  Blank
text raises `ValueError("Text cannot be empty")`; text within the limit
is returned unchanged; otherwise the window `text[:max_chars]` is cut at
the last `'.'` when `last_sentence > max_chars * 0.8` (float comparison,
modelled exactly: see header), else returned whole. -/
def validate_text_length (text : List Char) (max_chars : Nat) :
    Except PyErr (List Char) :=
  if isBlank text then
    .error (.valueError ("Text cannot be empty".toList))
  else if text.length ≤ max_chars then
    .ok text
  else
    let truncated := text.take max_chars
    match pyRfind truncated ['.'] with
    | some last_sentence =>
      if (last_sentence : ℚ) > (max_chars : ℚ) * (4 / 5) then
        .ok (truncated.take (last_sentence + 1))
      else
        .ok truncated
    | none => .ok truncated

/-- Observable outcome of one `generate_audio` call: the returned bytes
or raised error, and the list of texts actually sent to the ElevenLabs
API (in order). -/
structure AudioRun where
  result : Except PyErr (List Nat)
  apiCalls : List (List Char)

/-- `generate_audio` (elevenlabs_client.py lines 115–151), with the
external service abstracted as a function `api` from the text sent to
the audio bytes or error.  `validate_text_length` runs first (default
`max_chars = 5000`), so blank input raises before any API call; an API
error is wrapped in `RuntimeError` (`raise RuntimeError(...) from e`). -/
def generate_audio_run (text : List Char)
    (api : List Char → Except PyErr (List Nat)) : AudioRun :=
  match validate_text_length text 5000 with
  | .error e => ⟨.error e, []⟩
  | .ok processed_text =>
    match api processed_text with
    | .ok audio_data => ⟨.ok audio_data, [processed_text]⟩
    | .error e => ⟨.error (.runtimeError e), [processed_text]⟩

/-- The fixed phrase synthesized by `test_connection`
(elevenlabs_client.py line 252). -/
def testPhrase : List Char := "Testing connection.".toList

/-- `test_connection` (elevenlabs_client.py lines 244–256): synthesize
`"Testing connection."` and return `len(test_audio) > 0`; any exception
is caught and converted to `False`. -/
def test_connection (api : List Char → Except PyErr (List Nat)) : Bool :=
  match (generate_audio_run testPhrase api).result with
  | .ok test_audio => decide (0 < test_audio.length)
  | .error _ => false

/-! ## src/streamlit_app.py — PDFAudioSummarizerApp -/

/-- Outcome of one extraction library (pdfplumber or PyPDF2) on the
uploaded document: the per-page `page.extract_text()` results in
document order (an empty list of characters models a page yielding
`None` or `""`, both falsy in Python), or an exception anywhere in the
attempt. -/
inductive MethodResult where
  | pages (ps : List (List Char))
  | raises

/-- The page-concatenation loop shared by both extraction methods
(streamlit_app.py lines 120–124 and 137–142): nonempty page texts are
appended, each followed by `"\n\n"`. -/
def concatPages (ps : List (List Char)) : List Char :=
  ps.foldl (fun text page_text =>
    if page_text.isEmpty then text else text ++ page_text ++ ['\n', '\n']) []

/-- Externally observable effects of one `extract_pdf_text` call:
how many times the PyPDF2 fallback was invoked, and whether
`uploaded_file.seek(0)` was executed before that invocation. -/
structure ExtractTrace where
  secondaryCalls : Nat
  seekZeroBeforeSecondary : Bool

/-- The PyPDF2 fallback block of `extract_pdf_text` (streamlit_app.py
lines 133–149): seek(0), read pages, concatenate, return the stripped
text when non-blank; any exception or blank text yields `none`.  Both
methods read the same uploaded document; their outcomes are the two
`MethodResult` arguments of `extract_pdf_text`. -/
def runSecondary (secondary : MethodResult) : Option (List Char) × ExtractTrace :=
  match secondary with
  | .raises => (none, ⟨1, true⟩)
  | .pages ps =>
    let text := concatPages ps
    if (stripChars text).isEmpty then (none, ⟨1, true⟩)
    else (some (stripChars text), ⟨1, true⟩)

/-- `extract_pdf_text` (streamlit_app.py lines 102–153): try pdfplumber;
if it raises, or its concatenated text is blank (`if text.strip():`
falls through), fall back to PyPDF2 after `uploaded_file.seek(0)`. -/
def extract_pdf_text (primary secondary : MethodResult) :
    Option (List Char) × ExtractTrace :=
  match primary with
  | .raises => runSecondary secondary
  | .pages ps =>
    let text := concatPages ps
    if (stripChars text).isEmpty then runSecondary secondary
    else (some (stripChars text), ⟨0, false⟩)

/-- The suggested download filename (streamlit_app.py line 290):
`uploaded_file.name.replace('.pdf', '') + "_summary.mp3"` —
`str.replace` deletes every occurrence of `".pdf"`, not only a final
extension. -/
def suggested_filename (name : List Char) : List Char :=
  pyReplace name (".pdf".toList) [] ++ "_summary.mp3".toList

/-- The MIME type passed to `st.download_button` (streamlit_app.py
line 308). -/
def download_mime : List Char := "audio/mp3".toList

/-! ## Specification lemmas for the string primitives -/

/-- If a non-empty pattern matches at the head, the string is non-empty. -/
theorem headMatches_cons_ne_nil {c : Char} {cs s : List Char}
    (h : headMatches (c :: cs) s = true) : s ≠ [] := by
  cases s with
  | nil => simp [headMatches] at h
  | cons d ds => simp

/-- `pyRfind s sub = some i` yields a genuine occurrence: `sub` matches
`s` at index `i`, and `i` is within the string. -/
theorem pyRfind_some_spec {s sub : List Char} {i : Nat}
    (h : pyRfind s sub = some i) :
    headMatches sub (s.drop i) = true ∧ i ≤ s.length := by
  induction s generalizing i with
  | nil =>
    simp only [pyRfind] at h
    by_cases hsub : sub.isEmpty
    · simp only [hsub, if_pos] at h
      cases h
      cases sub with
      | nil => simp [headMatches]
      | cons c cs => simp [List.isEmpty] at hsub
    · simp [hsub] at h
  | cons c rest ih =>
    simp only [pyRfind] at h
    rcases hr : pyRfind rest sub with _ | j
    · rw [hr] at h
      by_cases hm : headMatches sub (c :: rest) = true
      · simp only [hm, if_pos] at h
        cases h
        exact ⟨hm, by simp⟩
      · simp [hm] at h
    · rw [hr] at h
      cases h
      obtain ⟨h1, h2⟩ := ih hr
      refine ⟨by simpa using h1, by simp; omega⟩

/-- For a non-empty pattern, a `pyRfind` hit lies strictly inside the
string. -/
theorem pyRfind_some_lt {s : List Char} {c : Char} {cs : List Char} {i : Nat}
    (h : pyRfind s (c :: cs) = some i) : i < s.length := by
  obtain ⟨h1, h2⟩ := pyRfind_some_spec h
  have hne : s.drop i ≠ [] := headMatches_cons_ne_nil h1
  rcases Nat.lt_or_ge i s.length with hlt | hge
  · exact hlt
  · exact absurd (List.drop_eq_nil_of_le hge) hne

/-- `pyRfind s sub = none` means `sub` occurs nowhere in `s`
(Python result `-1`). -/
theorem pyRfind_none_spec {s sub : List Char}
    (h : pyRfind s sub = none) (j : Nat) :
    headMatches sub (s.drop j) = false := by
  induction s generalizing j with
  | nil =>
    simp only [pyRfind] at h
    by_cases hsub : sub.isEmpty
    · simp [hsub] at h
    · cases sub with
      | nil => simp [List.isEmpty] at hsub
      | cons c cs => simp [headMatches]
  | cons c rest ih =>
    simp only [pyRfind] at h
    rcases hr : pyRfind rest sub with _ | k
    · rw [hr] at h
      by_cases hm : headMatches sub (c :: rest) = true
      · simp [hm] at h
      · cases j with
        | zero => simpa using Bool.eq_false_iff.mpr hm
        | succ j => simpa using ih hr j
    · simp [hr] at h

/-- `pyRfind` returns the greatest occurrence index: it models the
right-to-left search of Python `str.rfind`. -/
theorem pyRfind_greatest {s sub : List Char} {i : Nat}
    (h : pyRfind s sub = some i) (j : Nat) (hjle : j ≤ s.length)
    (hj : headMatches sub (s.drop j) = true) : j ≤ i := by
  induction s generalizing i j with
  | nil =>
    simp only [pyRfind] at h
    by_cases hsub : sub.isEmpty
    · simp only [hsub, if_pos] at h
      cases h
      simpa using hjle
    · simp [hsub] at h
  | cons c rest ih =>
    simp only [pyRfind] at h
    rcases hr : pyRfind rest sub with _ | k
    · rw [hr] at h
      by_cases hm : headMatches sub (c :: rest) = true
      · simp only [hm, if_pos] at h
        cases h
        cases j with
        | zero => exact Nat.le_refl 0
        | succ j =>
          have := pyRfind_none_spec hr j
          rw [List.drop_succ_cons] at hj
          rw [hj] at this
          cases this
      · simp [hm] at h
    · rw [hr] at h
      cases h
      cases j with
      | zero => exact Nat.zero_le _
      | succ j =>
        rw [List.drop_succ_cons] at hj
        have hjle' : j ≤ rest.length := by simpa using hjle
        exact Nat.succ_le_succ (ih hr j hjle' hj)

/-- Case analysis of `truncate_pdf_content`: either the input fits the
token budget and is returned unchanged, or the result is `text.take n`
for some `n` within the character budget. -/
theorem truncate_eq_take (text : List Char) :
    (estimate_tokens text ≤ max_input_tokens - 1000 ∧
      truncate_pdf_content text = text) ∨
    (∃ n, n ≤ (max_input_tokens - 1000) * 4 ∧
      truncate_pdf_content text = text.take n) := by
  by_cases h : estimate_tokens text ≤ max_input_tokens - 1000
  · left
    exact ⟨h, by simp [truncate_pdf_content, h]⟩
  · right
    simp only [truncate_pdf_content, h, if_false]
    split
    · rename_i i heq
      split
      · refine ⟨min i ((max_input_tokens - 1000) * 4), ?_, ?_⟩
        · exact Nat.min_le_right _ _
        · rw [List.take_take]
      · exact ⟨(max_input_tokens - 1000) * 4, Nat.le_refl _, rfl⟩
    · exact ⟨(max_input_tokens - 1000) * 4, Nat.le_refl _, rfl⟩

/-- Case analysis of the `.ok` results of `validate_text_length`. -/
theorem validate_ok_cases {text : List Char} {max_chars : Nat} {r : List Char}
    (h : validate_text_length text max_chars = .ok r) :
    (text.length ≤ max_chars ∧ r = text) ∨
    (max_chars < text.length ∧
      ∃ n, n ≤ max_chars ∧ r = (text.take max_chars).take n) := by
  by_cases hb : isBlank text
  · simp [validate_text_length, hb] at h
  · by_cases hl : text.length ≤ max_chars
    · simp only [validate_text_length, hb, Bool.false_eq_true, if_false, hl,
        if_true, Except.ok.injEq] at h
      exact Or.inl ⟨hl, h.symm⟩
    · right
      refine ⟨Nat.lt_of_not_le hl, ?_⟩
      simp only [validate_text_length, hb, Bool.false_eq_true, if_false, hl,
        if_true] at h
      split at h
      · rename_i i heq
        split at h
        · rename_i hcond
          injection h with h
          refine ⟨i + 1, ?_, h.symm⟩
          have hi := pyRfind_some_lt heq
          rw [List.length_take] at hi
          omega
        · injection h with h
          refine ⟨max_chars, Nat.le_refl _, ?_⟩
          rw [← h, List.take_take]
          simp
      · injection h with h
        refine ⟨max_chars, Nat.le_refl _, ?_⟩
        rw [← h, List.take_take]
        simp

/-- A replicated non-whitespace character is never blank. -/
theorem isBlank_replicate_cons (n : Nat) (c : Char)
    (hc : isSpacePy c = false) :
    isBlank (List.replicate (n + 1) c) = false := by
  rw [List.replicate_succ]
  simp [isBlank, hc]

/-! ## Claim theorems -/

/-- C1 (counterexample): as stated the claim is false.  The token-budget
guard keeps the input whenever `len(text) // 4 ≤ maxInputTokens - 1000`,
which admits strings of up to `(maxInputTokens - 1000) * 4 + 3`
characters: a 396001-character input is returned unchanged, exceeding
the claimed character bound `(maxInputTokens - 1000) * 4 = 396000`. -/
theorem claim_C1_cex :
    truncate_pdf_content (List.replicate 396001 'a') =
      List.replicate 396001 'a' ∧
    ¬ ((truncate_pdf_content (List.replicate 396001 'a')).length ≤
        (max_input_tokens - 1000) * 4) := by
  have hest : estimate_tokens (List.replicate 396001 'a') ≤
      max_input_tokens - 1000 := by
    rw [estimate_tokens, List.length_replicate, max_input_tokens]
  have heq : truncate_pdf_content (List.replicate 396001 'a') =
      List.replicate 396001 'a' := by
    rw [truncate_pdf_content, if_pos hest]
  refine ⟨heq, ?_⟩
  rw [heq, List.length_replicate, max_input_tokens]
  omega

/-- C1 (amended): every result of `truncate_pdf_content` has estimated
token count at most `maxInputTokens - 1000` — hence character count at
most `(maxInputTokens - 1000) * 4 + 3`, not `(maxInputTokens - 1000) * 4`
as the claim stated — and every successful result of
`validate_text_length` has length at most `max_chars`. -/
theorem claim_C1_amended (text : List Char) :
    estimate_tokens (truncate_pdf_content text) ≤ max_input_tokens - 1000 ∧
    (truncate_pdf_content text).length ≤ (max_input_tokens - 1000) * 4 + 3 ∧
    (∀ max_chars r, validate_text_length text max_chars = .ok r →
      r.length ≤ max_chars) := by
  have hlen : (truncate_pdf_content text).length ≤
      (max_input_tokens - 1000) * 4 + 3 := by
    rcases truncate_eq_take text with ⟨hest, heq⟩ | ⟨n, hn, heq⟩
    · rw [heq]
      simp only [estimate_tokens, max_input_tokens] at hest ⊢
      omega
    · rw [heq, List.length_take]
      simp only [max_input_tokens] at hn ⊢
      omega
  refine ⟨?_, hlen, ?_⟩
  · simp only [estimate_tokens, max_input_tokens] at hlen ⊢
    omega
  · intro max_chars r h
    rcases validate_ok_cases h with ⟨hle, rfl⟩ | ⟨_, n, hn, rfl⟩
    · exact hle
    · rw [List.take_take, List.length_take]
      omega

/-- C1 (witness for the amended theorem). -/
theorem claim_C1_witness :
    estimate_tokens (truncate_pdf_content ['h', 'i']) ≤
      max_input_tokens - 1000 ∧
    validate_text_length ['h', 'i'] 5000 = .ok ['h', 'i'] ∧
    (['h', 'i'] : List Char).length ≤ 5000 := by
  refine ⟨(claim_C1_amended ['h', 'i']).1, rfl, by decide⟩

/-- C3: with the default limit of 5000 characters, a non-blank text of
length exactly 5000 passes `validate_text_length` unchanged; a text of
length 5001 or more is truncated to at most 5000 characters, cut after
the last period of the 5000-character window when that period sits at an
index above 4000 (80% of the window), and hard-cut at 5000 characters
otherwise. -/
theorem claim_C3 (text : List Char) (hnb : isBlank text = false) :
    (text.length = 5000 → validate_text_length text 5000 = .ok text) ∧
    (5001 ≤ text.length →
      ∃ r, validate_text_length text 5000 = .ok r ∧ r.length ≤ 5000 ∧
        r ≠ text ∧
        ((∃ i, pyRfind (text.take 5000) ['.'] = some i ∧ 4000 < i ∧
            r = text.take (i + 1)) ∨
         ((∀ i, pyRfind (text.take 5000) ['.'] = some i → i ≤ 4000) ∧
            r = text.take 5000))) := by
  constructor
  · intro hl
    have : text.length ≤ 5000 := Nat.le_of_eq hl
    simp [validate_text_length, hnb, this]
  · intro hlen
    have hnle : ¬ text.length ≤ 5000 := by omega
    have hwin : (text.take 5000).length = 5000 := by
      rw [List.length_take]; omega
    simp only [validate_text_length, hnb, Bool.false_eq_true, if_false,
      hnle, if_true]
    split
    · rename_i i heq
      have hi : i < 5000 := by
        have := pyRfind_some_lt heq
        omega
      split
      · rename_i hcond
        have hi4000 : 4000 < i := by
          have h1 : ((4000 : Nat) : ℚ) < (i : ℚ) := by
            have : ((5000 : Nat) : ℚ) * (4 / 5) = ((4000 : Nat) : ℚ) := by
              norm_num
            rw [← this]
            exact hcond
          exact_mod_cast h1
        refine ⟨(text.take 5000).take (i + 1), rfl, ?_, ?_, ?_⟩
        · rw [List.length_take, hwin]; omega
        · intro he
          have := congrArg List.length he
          rw [List.length_take, hwin] at this
          omega
        · left
          refine ⟨i, heq, hi4000, ?_⟩
          rw [List.take_take]
          congr 1
          omega
      · rename_i hcond
        have hi4000 : i ≤ 4000 := by
          have h1 : (i : ℚ) ≤ ((4000 : Nat) : ℚ) := by
            have h2 : ((5000 : Nat) : ℚ) * (4 / 5) = ((4000 : Nat) : ℚ) := by
              norm_num
            rw [← h2]
            exact le_of_not_lt hcond
          exact_mod_cast h1
        refine ⟨text.take 5000, rfl, hwin.le, ?_, ?_⟩
        · intro he
          have := congrArg List.length he
          rw [hwin] at this
          omega
        · right
          refine ⟨?_, rfl⟩
          intro j hj
          rw [heq] at hj
          injection hj with hj
          omega
    · rename_i heq
      refine ⟨text.take 5000, rfl, hwin.le, ?_, ?_⟩
      · intro he
        have := congrArg List.length he
        rw [hwin] at this
        omega
      · right
        refine ⟨?_, rfl⟩
        intro j hj
        rw [heq] at hj
        cases hj

/-- C3 (witness). -/
theorem claim_C3_witness :
    isBlank (List.replicate 5000 'a') = false ∧
    validate_text_length (List.replicate 5000 'a') 5000 =
      .ok (List.replicate 5000 'a') := by
  have hnb : isBlank (List.replicate 5000 'a') = false := by
    have h1 : isSpacePy 'a' = false := by decide
    have h2 := isBlank_replicate_cons 4999 'a' h1
    norm_num at h2
    exact h2
  exact ⟨hnb, (claim_C3 (List.replicate 5000 'a') hnb).1
    (by rw [List.length_replicate])⟩

/-- C6: truncation is the identity on already-short inputs — a text
within the token budget passes `truncate_pdf_content` unchanged, and a
non-blank text within the character limit passes `validate_text_length`
unchanged. -/
theorem claim_C6 (text : List Char) :
    (estimate_tokens text ≤ max_input_tokens - 1000 →
      truncate_pdf_content text = text) ∧
    (∀ max_chars, isBlank text = false → text.length ≤ max_chars →
      validate_text_length text max_chars = .ok text) := by
  constructor
  · intro h
    simp [truncate_pdf_content, h]
  · intro max_chars hb hl
    simp [validate_text_length, hb, hl]

/-- C6 (witness). -/
theorem claim_C6_witness :
    truncate_pdf_content ['h', 'i'] = ['h', 'i'] ∧
    validate_text_length ['h', 'i'] 5000 = .ok ['h', 'i'] :=
  ⟨(claim_C6 ['h', 'i']).1 (by decide),
   (claim_C6 ['h', 'i']).2 5000 (by decide) (by decide)⟩

/-- C10: both truncation operations return a prefix of their input:
`truncate_pdf_content text` is always `text.take n` for some `n`, and
every `.ok` result of `validate_text_length` is `text.take n` for some
`n` — no rewriting, reordering, or insertion. -/
theorem claim_C10 (text : List Char) :
    (∃ n, truncate_pdf_content text = text.take n) ∧
    (∀ max_chars r, validate_text_length text max_chars = .ok r →
      ∃ n, r = text.take n) := by
  constructor
  · rcases truncate_eq_take text with ⟨_, heq⟩ | ⟨n, _, heq⟩
    · exact ⟨text.length, by rw [heq, List.take_length]⟩
    · exact ⟨n, heq⟩
  · intro max_chars r h
    rcases validate_ok_cases h with ⟨_, hr⟩ | ⟨_, n, _, hr⟩
    · exact ⟨text.length, by rw [hr, List.take_length]⟩
    · exact ⟨min n max_chars, by rw [hr, List.take_take]⟩

/-- C10 (witness). -/
theorem claim_C10_witness :
    (∃ n, truncate_pdf_content ['h', 'i'] = (['h', 'i'] : List Char).take n) ∧
    (∃ n, (['h', 'i'] : List Char) = (['h', 'i'] : List Char).take n) :=
  ⟨(claim_C10 ['h', 'i']).1,
   (claim_C10 ['h', 'i']).2 5000 ['h', 'i'] rfl⟩

/-- For a target of 450 words, the float warning thresholds coincide
with the integer bounds 315 and 585. -/
theorem summary_warning_450_iff (wc : Nat) :
    summary_warning wc 450 = true ↔ (wc < 315 ∨ 585 < wc) := by
  rw [summary_warning,
    show ((450 : Nat) : ℚ) * (7 / 10) = ((315 : Nat) : ℚ) by norm_num,
    show ((450 : Nat) : ℚ) * (13 / 10) = ((585 : Nat) : ℚ) by norm_num]
  simp only [Bool.or_eq_true, decide_eq_true_eq, gt_iff_lt, Nat.cast_lt]

/-- C2: blank input (empty or whitespace-only) makes `generate_summary`
raise `ValueError("PDF content cannot be empty")` and `generate_audio`
raise `ValueError("Text cannot be empty")`, in both cases before any
external API call is made (the recorded call lists are empty). -/
theorem claim_C2 (text : List Char) (h : isBlank text = true) :
    ∀ (target_minutes : Nat)
      (sumApi : List Char → Except PyErr (List Char))
      (audApi : List Char → Except PyErr (List Nat)),
      (generate_summary_run text target_minutes sumApi).result =
        .error (.valueError ("PDF content cannot be empty".toList)) ∧
      (generate_summary_run text target_minutes sumApi).apiCalls = [] ∧
      (generate_audio_run text audApi).result =
        .error (.valueError ("Text cannot be empty".toList)) ∧
      (generate_audio_run text audApi).apiCalls = [] := by
  intro target_minutes sumApi audApi
  refine ⟨?_, ?_, ?_, ?_⟩ <;>
    simp [generate_summary_run, generate_audio_run, validate_text_length, h]

/-- C2 (witness). -/
theorem claim_C2_witness :
    (generate_summary_run [] 6 (fun _ => .ok [])).apiCalls = [] ∧
    (generate_audio_run [] (fun _ => .ok [])).apiCalls = [] := by
  obtain ⟨_, h2, _, h4⟩ :=
    claim_C2 [] (by decide) 6 (fun _ => .ok []) (fun _ => .ok [])
  exact ⟨h2, h4⟩

/-- C4: whenever pdfplumber raises or yields only whitespace, the PyPDF2
fallback runs exactly once, after the file cursor is reset to the start,
and its stripped concatenated text is returned whenever non-empty. -/
theorem claim_C4 (primary secondary : MethodResult)
    (h : primary = .raises ∨
      ∃ ps, primary = .pages ps ∧
        (stripChars (concatPages ps)).isEmpty = true) :
    (extract_pdf_text primary secondary).2.secondaryCalls = 1 ∧
    (extract_pdf_text primary secondary).2.seekZeroBeforeSecondary = true ∧
    (∀ qs, secondary = .pages qs →
      (stripChars (concatPages qs)).isEmpty = false →
      (extract_pdf_text primary secondary).1 =
        some (stripChars (concatPages qs))) := by
  have hrun : extract_pdf_text primary secondary = runSecondary secondary := by
    rcases h with h | ⟨ps, hp, hblank⟩
    · rw [h, extract_pdf_text]
    · rw [hp]
      simp [extract_pdf_text, hblank]
  rw [hrun]
  refine ⟨?_, ?_, ?_⟩
  · cases secondary with
    | raises => rfl
    | pages qs =>
      by_cases hb : (stripChars (concatPages qs)).isEmpty
      · simp [runSecondary, hb]
      · simp [runSecondary, hb]
  · cases secondary with
    | raises => rfl
    | pages qs =>
      by_cases hb : (stripChars (concatPages qs)).isEmpty
      · simp [runSecondary, hb]
      · simp [runSecondary, hb]
  · intro qs hqs hne
    rw [hqs]
    simp [runSecondary, hne]

/-- C4 (witness). -/
theorem claim_C4_witness :
    (extract_pdf_text .raises (.pages [['h', 'i']])).1 =
      some (stripChars (concatPages [['h', 'i']])) ∧
    (extract_pdf_text .raises (.pages [['h', 'i']])).2.secondaryCalls = 1 := by
  obtain ⟨h1, _, h3⟩ :=
    claim_C4 .raises (.pages [['h', 'i']]) (Or.inl rfl)
  exact ⟨h3 [['h', 'i']] rfl (by decide), h1⟩

/-- C5: for `target_minutes = 3` and non-blank input, the prompt sent to
the summarization API embeds the decimal word target 450 = 3 * 150, and
on a successful response the run returns the stripped summary (it does
not fail) and logs a warning exactly when the summary word count is
below 315 or above 585. -/
theorem claim_C5 (pdf_text : List Char) (hnb : isBlank pdf_text = false)
    (api : List Char → Except PyErr (List Char)) :
    (∃ pre post, (generate_summary_run pdf_text 3 api).apiCalls =
        [pre ++ Nat.toDigits 10 450 ++ post]) ∧
    (∀ response,
      api (create_summary_prompt (truncate_pdf_content pdf_text) 3) =
        .ok response →
      (generate_summary_run pdf_text 3 api).result =
        .ok (stripChars response) ∧
      ((generate_summary_run pdf_text 3 api).warned = true ↔
        (wordCount (stripChars response) < 315 ∨
          585 < wordCount (stripChars response)))) := by
  have hprompt : create_summary_prompt (truncate_pdf_content pdf_text) 3 =
      (promptSeg0 ++ Nat.toDigits 10 3 ++ promptSeg1) ++ Nat.toDigits 10 450 ++
      (promptSeg2 ++ Nat.toDigits 10 450 ++ promptSeg3 ++
        truncate_pdf_content pdf_text ++ promptSeg4) := by
    simp [create_summary_prompt]
  constructor
  · refine ⟨promptSeg0 ++ Nat.toDigits 10 3 ++ promptSeg1,
      promptSeg2 ++ Nat.toDigits 10 450 ++ promptSeg3 ++
        truncate_pdf_content pdf_text ++ promptSeg4, ?_⟩
    simp only [generate_summary_run, hnb, Bool.false_eq_true, if_false]
    rcases hapi : api (create_summary_prompt (truncate_pdf_content pdf_text) 3)
      with e | response
    · simp only [hapi, ← hprompt]
    · simp only [hapi, ← hprompt]
  · intro response hresp
    simp only [generate_summary_run, hnb, Bool.false_eq_true, if_false, hresp]
    refine ⟨by simp, ?_⟩
    have h450 : (3 : Nat) * 150 = 450 := by norm_num
    simp only [h450]
    exact summary_warning_450_iff (wordCount (stripChars response))

/-- C5 (witness). -/
theorem claim_C5_witness :
    (∃ pre post,
      (generate_summary_run ['h', 'i'] 3 (fun _ => .ok ['o', 'k'])).apiCalls =
        [pre ++ Nat.toDigits 10 450 ++ post]) ∧
    (generate_summary_run ['h', 'i'] 3 (fun _ => .ok ['o', 'k'])).result =
      .ok (stripChars ['o', 'k']) := by
  obtain ⟨h1, h2⟩ := claim_C5 ['h', 'i'] (by decide) (fun _ => .ok ['o', 'k'])
  exact ⟨h1, (h2 ['o', 'k'] rfl).1⟩

/-- C7: `test_connection` returns `true` iff synthesizing the fixed
phrase `"Testing connection."` yields audio bytes of non-zero length;
any error outcome of the synthesis yields `false` rather than a
propagated exception. -/
theorem claim_C7 (api : List Char → Except PyErr (List Nat)) :
    (test_connection api = true ↔
      ∃ audio, (generate_audio_run testPhrase api).result = .ok audio ∧
        0 < audio.length) ∧
    (∀ e, api testPhrase = .error e → test_connection api = false) := by
  have hval : validate_text_length testPhrase 5000 = .ok testPhrase := rfl
  constructor
  · constructor
    · intro h
      rcases hres : (generate_audio_run testPhrase api).result with e | audio
      · simp only [test_connection, hres] at h
        exact Bool.noConfusion h
      · simp only [test_connection, hres, decide_eq_true_eq] at h
        exact ⟨audio, rfl, h⟩
    · rintro ⟨audio, hres, hlen⟩
      simp only [test_connection, hres, decide_eq_true_eq]
      exact hlen
  · intro e he
    have hres : (generate_audio_run testPhrase api).result =
        .error (.runtimeError e) := by
      simp only [generate_audio_run, hval, he]
    simp only [test_connection, hres]

/-- C7 (witness). -/
theorem claim_C7_witness :
    test_connection (fun _ => .error (.apiError [])) = false :=
  (claim_C7 (fun _ => .error (.apiError []))).2 (.apiError []) rfl

/-- C9: for a fixed positive speaking rate, the estimated audio duration
is monotonically non-decreasing in the word count of the input. -/
theorem claim_C9 (t1 t2 : List Char) (wpm : Nat) (hw : 0 < wpm)
    (h : wordCount t1 ≤ wordCount t2) :
    estimate_audio_duration t1 wpm ≤ estimate_audio_duration t2 wpm := by
  simp only [estimate_audio_duration]
  have hw' : (0 : ℚ) < (wpm : ℚ) := by exact_mod_cast hw
  have h' : ((wordCount t1 : Nat) : ℚ) ≤ ((wordCount t2 : Nat) : ℚ) := by
    exact_mod_cast h
  exact (div_le_div_iff_of_pos_right hw').mpr h'

/-- C9 (witness). -/
theorem claim_C9_witness :
    (0 < 150) ∧ wordCount [] ≤ wordCount ['h', 'i'] ∧
    estimate_audio_duration [] 150 ≤ estimate_audio_duration ['h', 'i'] 150 :=
  ⟨by decide, by decide, claim_C9 [] ['h', 'i'] 150 (by decide) (by decide)⟩

/-- Unfolding `containsSub` at a cons cell. -/
theorem containsSub_cons_false {c : Char} {cs sub : List Char}
    (h : containsSub (c :: cs) sub = false) :
    headMatches sub (c :: cs) = false ∧ containsSub cs sub = false := by
  simp only [containsSub, Bool.or_eq_false_iff] at h
  exact h

/-- The pattern `".pdf"` cannot match at the head of `stem ++ ".pdf"`
when it occurs nowhere in `stem`: a match would either lie entirely
inside `stem`, or straddle the boundary, which the letters of `".pdf"`
make impossible (no proper border). -/
theorem headMatches_pdfExt_append (stem : List Char) (hne : stem ≠ [])
    (h : containsSub stem (".pdf".toList) = false) :
    headMatches (".pdf".toList) (stem ++ ".pdf".toList) = false := by
  have hext : (".pdf".toList) = ['.', 'p', 'd', 'f'] := rfl
  match stem with
  | [] => exact absurd rfl hne
  | [c1] =>
    rw [hext]
    have hin : headMatches ['p', 'd', 'f'] ('.' :: 'p' :: 'd' :: 'f' :: [])
        = false := by decide
    simp [headMatches, hin]
  | [c1, c2] =>
    rw [hext]
    have hin : headMatches ['d', 'f'] ('.' :: 'p' :: 'd' :: 'f' :: [])
        = false := by decide
    simp [headMatches, hin]
  | [c1, c2, c3] =>
    rw [hext]
    have hin : headMatches ['f'] ('.' :: 'p' :: 'd' :: 'f' :: [])
        = false := by decide
    simp [headMatches, hin]
  | c1 :: c2 :: c3 :: c4 :: rest =>
    rw [hext] at h ⊢
    have h1 : headMatches ['.', 'p', 'd', 'f'] (c1 :: c2 :: c3 :: c4 :: rest)
        = false := (containsSub_cons_false h).1
    simp only [headMatches, List.cons_append] at h1 ⊢
    simpa using h1

/-- With no fuel left over after the scan, `pyReplaceAux` on the empty
string returns the empty string at any fuel. -/
theorem pyReplaceAux_nil (fuel : Nat) (sub repl : List Char) :
    pyReplaceAux fuel [] sub repl = [] := by
  cases fuel <;> rfl

/-- Deleting the occurrences of `".pdf"` from `stem ++ ".pdf"` leaves
exactly `stem` when `".pdf"` occurs nowhere in `stem`. -/
theorem pyReplaceAux_strip_pdfExt (stem : List Char) :
    ∀ (fuel : Nat),
      (stem ++ ".pdf".toList).length ≤ fuel →
      containsSub stem (".pdf".toList) = false →
      pyReplaceAux fuel (stem ++ ".pdf".toList) (".pdf".toList) [] = stem := by
  induction stem with
  | nil =>
    intro fuel hfuel hc
    cases fuel with
    | zero => exact absurd hfuel (by decide)
    | succ f =>
      show pyReplaceAux (f + 1) ('.' :: ['p', 'd', 'f']) ['.', 'p', 'd', 'f'] []
          = []
      simp only [pyReplaceAux]
      rw [if_pos (by decide)]
      simp only [List.nil_append]
      exact pyReplaceAux_nil f _ _
  | cons c cs ih =>
    intro fuel hfuel hc
    obtain ⟨hm, hcs⟩ := containsSub_cons_false hc
    cases fuel with
    | zero =>
      simp only [List.length_append, List.length_cons] at hfuel
      omega
    | succ f =>
      have hm2 : headMatches (".pdf".toList) (c :: (cs ++ ".pdf".toList))
          = false := by
        have := headMatches_pdfExt_append (c :: cs) (by simp) hc
        simpa using this
      rw [show (c :: cs) ++ ".pdf".toList = c :: (cs ++ ".pdf".toList)
        from rfl]
      simp only [pyReplaceAux]
      rw [if_neg]
      · have hfuel' : (cs ++ ".pdf".toList).length ≤ f := by
          simp only [List.length_cons, List.length_append] at hfuel ⊢
          omega
        rw [ih f hfuel' hcs]
      · rintro ⟨-, hcontra⟩
        rw [hm2] at hcontra
        exact Bool.noConfusion hcontra

/-- C8 (counterexample): as stated the claim is false.  The code builds
the filename with `name.replace('.pdf', '')`, which deletes every
occurrence of the substring `".pdf"`, not only the final extension: for
the upload name `"a.pdf.pdf"` the code produces `"a_summary.mp3"`, not
the `"a.pdf_summary.mp3"` that removing only the extension (preserving
the rest of the name) would give. -/
theorem claim_C8_cex :
    suggested_filename ("a.pdf.pdf".toList) = "a_summary.mp3".toList ∧
    suggested_filename ("a.pdf.pdf".toList) ≠
      "a.pdf".toList ++ "_summary.mp3".toList :=
  ⟨by decide, by decide⟩

/-- C8 (amended): the suggested filename is obtained by deleting every
occurrence of the substring `".pdf"` from the document name and
appending `"_summary.mp3"`; in particular, when the only occurrence is
the final extension, the rest of the name is preserved, and the MIME
type is the fixed `"audio/mp3"`. -/
theorem claim_C8_amended (stem : List Char)
    (h : containsSub stem (".pdf".toList) = false) :
    suggested_filename (stem ++ ".pdf".toList) =
      stem ++ "_summary.mp3".toList ∧
    download_mime = "audio/mp3".toList := by
  refine ⟨?_, rfl⟩
  rw [suggested_filename, pyReplace]
  rw [pyReplaceAux_strip_pdfExt stem (stem ++ ".pdf".toList).length
    (Nat.le_refl _) h]

/-- C8 (witness for the amended theorem). -/
theorem claim_C8_witness :
    containsSub ("report".toList) (".pdf".toList) = false ∧
    suggested_filename ("report".toList ++ ".pdf".toList) =
      "report".toList ++ "_summary.mp3".toList :=
  ⟨by decide, (claim_C8_amended ("report".toList) (by decide)).1⟩

end PdfAudio
